import Mathlib

/-!
Verification of the OnePlus 5/T USB charger under/over-voltage protection
driver (`op_cg_uovp.c`, earlier revision with `no_uovp_current_ua` and
`lock_current`).  The C state machine is embedded shallowly: the static
`struct op_cg_uovp_data` becomes `OpData`, the external `struct smb_charger`
collaborator becomes `SmbCharger`, and every C function becomes a pure Lean
function threading those two records.  Fallible external calls
(`smblib_get_icl_current`, `smblib_set_icl_current`) are driven by explicit
failure flags supplied with each processed sample.
-/

namespace OpCgUovp

/-! ### Constants from op_cg_uovp.c / op_cg_uovp.h -/

def CHG_SOFT_OVP_MV : Int := 5800
def CHG_SOFT_UVP_MV : Int := 4300
def CHG_SOFT_OVP_HYST_MV : Int := 100
def CURRENT_CEIL_DEFAULT : Int := 1500000
def CURRENT_FLOOR_UA : Int := 500000
def DETECT_CNT : Nat := 3

/-- Error code `-EINVAL`, the value the driver returns when no adjustment is
possible; external smblib failures are modelled with the same nonzero code
(only `ret != 0` is ever inspected). -/
def negEINVAL : Int := -22

/-- Modelled from the spec: the charger-type detector returns a bitmask of
APSD result bits (`smb-lib.h` is not part of the sources).  The exact bit
values never matter to the logic, only which table rows they intersect. -/
def SDP_CHARGER_BIT : Nat := 1
def OCP_CHARGER_BIT : Nat := 2
def CDP_CHARGER_BIT : Nat := 4
def DCP_CHARGER_BIT : Nat := 8
def FLOAT_CHARGER_BIT : Nat := 16
def NO_CHARGER_BIT : Nat := 0

/-! ### Data model -/

/-- One row of `op_cg_current_data`: an apsd bitmask with its max current. -/
structure CurrentTableEntry where
  apsd_bit : Nat
  max_ichg_ua : Int
deriving Repr, DecidableEq

/-- Table of apsd bits with their corresponding max current uA. -/
def op_cg_current_data : List CurrentTableEntry :=
  [ ⟨SDP_CHARGER_BIT, CURRENT_FLOOR_UA⟩,
    ⟨NO_CHARGER_BIT, 900000⟩,
    ⟨CDP_CHARGER_BIT, 1500000⟩,
    ⟨DCP_CHARGER_BIT ||| FLOAT_CHARGER_BIT ||| OCP_CHARGER_BIT, 3000000⟩ ]

/-- Modelled from the spec: the external charger abstraction (`struct
smb_charger` plus the smblib calls the driver consumes).  `icl_ua` is the
externally stored input-current limit, `apsd_bit` the detected charger-type
bitmask, `charging_en` whether charging is enabled, `chg_ovp` the global
fault flag, `vbus_present` whether input power is present. -/
structure SmbCharger where
  vbus_present : Bool
  chg_ovp : Bool
  icl_ua : Int
  apsd_bit : Nat
  charging_en : Bool
deriving Repr, DecidableEq

/-- The driver state `struct op_cg_uovp_data` (the charger handle is kept in `World`). -/
structure OpData where
  uovp_cnt : Nat
  not_uovp_cnt : Nat
  vchg_mv : Int
  current_ua : Int
  no_uovp_current_ua : Int
  last_uovp_state : Bool
  uovp_state : Bool
  is_overvolt : Bool
  lock_current : Bool
  enable : Bool
deriving Repr, DecidableEq

/-- The zeroed static state at process start / after a disable call. -/
def opDataZero : OpData :=
  { uovp_cnt := 0, not_uovp_cnt := 0, vchg_mv := 0, current_ua := 0,
    no_uovp_current_ua := 0, last_uovp_state := false, uovp_state := false,
    is_overvolt := false, lock_current := false, enable := false }

/-! ### Modelled external collaborator calls -/

/-- Modelled from the spec: `op_charging_en` enables/disables charging. -/
def op_charging_en (chg : SmbCharger) (en : Bool) : SmbCharger :=
  { chg with charging_en := en }

/-- Modelled from the spec: the battery-temperature re-check has no effect on
any state the protection logic observes. -/
def op_check_battery_temp (chg : SmbCharger) : SmbCharger := chg

/-- Modelled from the spec: the auto-input-current-limit re-detection has no
effect on any state the protection logic observes. -/
def smblib_rerun_aicl (chg : SmbCharger) : SmbCharger := chg

/-- Modelled from the spec: reading the externally observed current limit,
which may fail (driven by the per-call `fail` flag). -/
def smblib_get_icl_current (chg : SmbCharger) (fail : Bool) : Option Int :=
  if fail then none else some chg.icl_ua

/-- Modelled from the spec: writing the current limit; on success the stored
limit is updated, on failure a nonzero code is returned and nothing changes. -/
def smblib_set_icl_current (chg : SmbCharger) (ichg_ua : Int) (fail : Bool) :
    Int × SmbCharger :=
  if fail then (negEINVAL, chg) else (0, { chg with icl_ua := ichg_ua })

/-- Modelled from the spec: the charger-type detector. -/
def op_get_apsd_bit (chg : SmbCharger) : Nat := chg.apsd_bit

/-! ### The driver functions -/

/-- Function `op_cg_uovp_cutoff`: disable charging and set the global fault flag once
the fault streak exceeds `DETECT_CNT`. -/
def op_cg_uovp_cutoff (opdata : OpData) (chg : SmbCharger) :
    OpData × SmbCharger :=
  if opdata.uovp_cnt ≤ DETECT_CNT then (opdata, chg)
  else (opdata, { op_charging_en chg false with chg_ovp := true })

/-- Function `op_cg_uovp_restore`: re-enable charging and clear the global fault flag
once the normal streak exceeds `DETECT_CNT`. -/
def op_cg_uovp_restore (opdata : OpData) (chg : SmbCharger) :
    OpData × SmbCharger :=
  if opdata.not_uovp_cnt ≤ DETECT_CNT then (opdata, chg)
  else
    let chg := op_charging_en chg true
    let chg := op_check_battery_temp chg
    let chg := smblib_rerun_aicl chg
    (opdata, { chg with chg_ovp := false })

/-- Function `op_cg_current_set`: vote the given current limit. -/
def op_cg_current_set (chg : SmbCharger) (ichg_ua : Int) (setFail : Bool) :
    Int × SmbCharger :=
  smblib_set_icl_current chg ichg_ua setFail

/-- The increase-direction loop of `op_cg_current_inc_dec`: walks the table
once, tracking the ceiling for the apsd bitmask and latching the first table
current above the observed one.  Returns `(ceil_ichg_ua, ichg_ua)`. -/
def incLoop : List CurrentTableEntry → Nat → Int → Int → Bool → Int × Int
  | [], _, ceil, ichg, _ => (ceil, ichg)
  | e :: rest, apsd, ceil, ichg, ichg_set =>
    let ceil := if apsd &&& e.apsd_bit ≠ 0 then e.max_ichg_ua else ceil
    if ichg_set then incLoop rest apsd ceil ichg true
    else if e.max_ichg_ua > ichg then incLoop rest apsd ceil e.max_ichg_ua true
    else incLoop rest apsd ceil ichg false

/-- The decrease-direction loop of `op_cg_current_inc_dec`: walks the table
backwards (hence applied to the reversed table) and breaks at the first max
current strictly below the observed one. -/
def decLoop : List CurrentTableEntry → Int → Int
  | [], ichg => ichg
  | e :: rest, ichg =>
    if e.max_ichg_ua < ichg then e.max_ichg_ua else decLoop rest ichg

/-- The shared tail of `op_cg_current_inc_dec`: apply the computed value if
it differs from the observed one, else report `-EINVAL`. -/
def op_cg_apply (opdata : OpData) (chg : SmbCharger) (ichg_ua : Int)
    (setFail : Bool) : Int × OpData × SmbCharger :=
  if opdata.current_ua ≠ ichg_ua then
    let r := op_cg_current_set chg ichg_ua setFail
    (r.1, opdata, r.2)
  else (negEINVAL, opdata, chg)

/-- Function `op_cg_current_inc_dec`: read the observed limit (aborting on failure),
record it into `current_ua`, search the table in the requested direction,
lock the current when an increase lands on the ceiling during a confirmed
normal streak, and apply the result. -/
def op_cg_current_inc_dec (opdata : OpData) (chg : SmbCharger)
    (increase : Bool) (getFail setFail : Bool) : Int × OpData × SmbCharger :=
  match smblib_get_icl_current chg getFail with
  | none => (negEINVAL, opdata, chg)
  | some ichg0 =>
    let opdata := { opdata with current_ua := ichg0 }
    if increase then
      let r := incLoop op_cg_current_data (op_get_apsd_bit chg)
        CURRENT_CEIL_DEFAULT ichg0 false
      let ichg := min r.2 r.1
      let opdata :=
        if ichg = r.1 ∧ DETECT_CNT ≤ opdata.not_uovp_cnt then
          { opdata with lock_current := true }
        else opdata
      op_cg_apply opdata chg ichg setFail
    else
      let ichg := max CURRENT_FLOOR_UA (decLoop op_cg_current_data.reverse ichg0)
      op_cg_apply opdata chg ichg setFail

/-- The `err:` label of `op_cg_detect_uovp`: only call cutoff if current
control fails and the global fault flag is not already set. -/
def op_cg_cutoff_on_err (ret : Int) (opdata : OpData) (chg : SmbCharger) :
    OpData × SmbCharger :=
  if ret ≠ 0 ∧ chg.chg_ovp = false then op_cg_uovp_cutoff opdata chg
  else (opdata, chg)

/-- Function `op_cg_detect_uovp`: the strict fault pass. -/
def op_cg_detect_uovp (opdata : OpData) (chg : SmbCharger)
    (getFail setFail : Bool) : OpData × SmbCharger :=
  let opdata := { opdata with
    is_overvolt := decide (opdata.vchg_mv > CHG_SOFT_OVP_MV) }
  let is_uovp : Bool :=
    if opdata.is_overvolt then true
    else decide (opdata.vchg_mv ≤ CHG_SOFT_UVP_MV)
  if is_uovp then
    let opdata := { opdata with uovp_state := true }
    let opdata :=
      if opdata.not_uovp_cnt ≠ 0 then { opdata with not_uovp_cnt := 0 }
      else opdata
    let opdata :=
      if opdata.last_uovp_state then
        { opdata with uovp_cnt := opdata.uovp_cnt + 1 }
      else opdata
    if opdata.last_uovp_state = false ∧ opdata.no_uovp_current_ua ≠ 0 then
      -- Restore last known good current and lock
      let r := op_cg_current_set chg opdata.no_uovp_current_ua setFail
      if r.1 ≠ 0 then op_cg_cutoff_on_err r.1 opdata r.2
      else ({ opdata with lock_current := true }, r.2)
    else
      -- Increase the current if over, decrease if under
      let r := op_cg_current_inc_dec opdata chg opdata.is_overvolt getFail setFail
      op_cg_cutoff_on_err r.1 r.2.1 r.2.2
  else (opdata, chg)

/-- Function `op_cg_detect_normal`: the hysteresis-relaxed normal pass. -/
def op_cg_detect_normal (opdata : OpData) (chg : SmbCharger)
    (getFail setFail : Bool) : OpData × SmbCharger :=
  let opdata := { opdata with
    is_overvolt :=
      decide (¬ (opdata.vchg_mv < CHG_SOFT_OVP_MV - CHG_SOFT_OVP_HYST_MV)) }
  let is_uovp : Bool :=
    if opdata.is_overvolt then true
    else decide (¬ (opdata.vchg_mv > CHG_SOFT_UVP_MV + CHG_SOFT_OVP_HYST_MV))
  if is_uovp then (opdata, chg)
  else if opdata.lock_current then (opdata, chg)
  else
    let opdata := { opdata with uovp_state := false }
    let opdata :=
      if opdata.uovp_cnt ≠ 0 then { opdata with uovp_cnt := 0 } else opdata
    let opdata :=
      if opdata.last_uovp_state = false then
        { opdata with not_uovp_cnt := opdata.not_uovp_cnt + 1 }
      else opdata
    if chg.chg_ovp then op_cg_uovp_restore opdata chg
    else if DETECT_CNT ≤ opdata.not_uovp_cnt then
      -- Increase the current if not undervolt for @DETECT_CNT iterations
      let opdata := { opdata with no_uovp_current_ua := opdata.current_ua }
      let r := op_cg_current_inc_dec opdata chg true getFail setFail
      (r.2.1, r.2.2)
    else (opdata, chg)

/-- Function `op_cg_handle_uovp`: fault pass, then (unless a fresh fault transition
just happened) the normal pass, then commit the verdict. -/
def op_cg_handle_uovp (opdata : OpData) (chg : SmbCharger)
    (getFail setFail : Bool) : OpData × SmbCharger :=
  let r := op_cg_detect_uovp opdata chg getFail setFail
  let r :=
    if r.1.uovp_state = true ∧ r.1.last_uovp_state = false then r
    else op_cg_detect_normal r.1 r.2 getFail setFail
  ({ r.1 with last_uovp_state := r.1.uovp_state }, r.2)

/-- The whole driver-side state: the static data plus the bound charger. -/
structure World where
  d : OpData
  chg : SmbCharger
deriving Repr, DecidableEq

/-- Function `op_check_charger_uovp`: the per-sample entry point. -/
def op_check_charger_uovp (w : World) (vchg_mv : Int)
    (getFail setFail : Bool) : World :=
  if w.d.enable = false then w
  else if w.chg.vbus_present = false then w
  else
    let d := { w.d with vchg_mv := vchg_mv }
    let r := op_cg_handle_uovp d w.chg getFail setFail
    ⟨r.1, r.2⟩

/-- Function `op_cg_uovp_enable`: the enable/disable lifecycle entry point. -/
def op_cg_uovp_enable (w : World) (chg_present : Bool) : World :=
  if w.d.enable = chg_present then w
  else if chg_present then { w with d := { w.d with enable := true } }
  else { w with d := opDataZero }

/-! ### Event sequences -/

/-- An externally triggered call into the module. -/
inductive Ev where
  | sample (vchg_mv : Int) (getFail setFail : Bool)
  | present (chg_present : Bool)
deriving Repr, DecidableEq

def stepEv (w : World) : Ev → World
  | Ev.sample v gf sf => op_check_charger_uovp w v gf sf
  | Ev.present p => op_cg_uovp_enable w p

def runEvents (w : World) (evs : List Ev) : World := evs.foldl stepEv w

def runSamples (w : World) (vs : List (Int × Bool × Bool)) : World :=
  vs.foldl (fun w p => op_check_charger_uovp w p.1 p.2.1 p.2.2) w

def runVolts (w : World) (vs : List Int) : World :=
  vs.foldl (fun w v => op_check_charger_uovp w v false false) w

/-- Zeroed state at process start with a bound external charger. -/
def initWorld (chg : SmbCharger) : World := ⟨opDataZero, chg⟩

/-- Freshly enabled protection (the state right after the enable call). -/
def enabledWorld (chg : SmbCharger) : World :=
  ⟨{ opDataZero with enable := true }, chg⟩

/-! ### Pure extractions of the stepped search, and its spec-side mirror -/

/-- The value `op_cg_current_inc_dec` computes for a given observed current,
charger type and direction (the table search plus clamp/floor). -/
def inc_dec_target (apsd : Nat) (ichg : Int) (increase : Bool) : Int :=
  if increase then
    let r := incLoop op_cg_current_data apsd CURRENT_CEIL_DEFAULT ichg false
    min r.2 r.1
  else
    max CURRENT_FLOOR_UA (decLoop op_cg_current_data.reverse ichg)

def listMin : List Int → Option Int
  | [] => none
  | x :: xs =>
    match listMin xs with
    | none => some x
    | some m => some (min x m)

def listMax : List Int → Option Int
  | [] => none
  | x :: xs =>
    match listMax xs with
    | none => some x
    | some m => some (max x m)

def tableMaxes : List Int := op_cg_current_data.map (fun e => e.max_ichg_ua)

/-- Spec-side `ceiling_for`: the largest max-current among entries whose
bitmask intersects the charger-type bitmask, defaulting to 1.5 A. -/
def ceiling_for_spec (apsd : Nat) : Int :=
  match listMax ((op_cg_current_data.filter
      (fun e => apsd &&& e.apsd_bit ≠ 0)).map (fun e => e.max_ichg_ua)) with
  | some m => m
  | none => CURRENT_CEIL_DEFAULT

/-- Spec-side `next_step`: for increase the smallest table max-current
strictly greater than the observed current, clamped to the ceiling; for
decrease the largest strictly smaller one, floored at the lowest table
value; the clamp bound itself when no such entry exists. -/
def next_step_spec (apsd : Nat) (ichg : Int) (increase : Bool) : Int :=
  if increase then
    match listMin (tableMaxes.filter (fun e => ichg < e)) with
    | some m => min m (ceiling_for_spec apsd)
    | none => ceiling_for_spec apsd
  else
    match listMax (tableMaxes.filter (fun e => e < ichg)) with
    | some m => max m CURRENT_FLOOR_UA
    | none => CURRENT_FLOOR_UA

/-! ### Closed-form helpers used in proofs -/

/-- Closed form of the ceiling tracked by `incLoop` (last matching row wins;
the 900000 row carries `NO_CHARGER_BIT = 0` and can never match). -/
def ceilFor (apsd : Nat) : Int :=
  if apsd &&& (DCP_CHARGER_BIT ||| FLOAT_CHARGER_BIT ||| OCP_CHARGER_BIT) ≠ 0
    then 3000000
  else if apsd &&& CDP_CHARGER_BIT ≠ 0 then 1500000
  else if apsd &&& SDP_CHARGER_BIT ≠ 0 then CURRENT_FLOOR_UA
  else CURRENT_CEIL_DEFAULT

/-- Closed form of the upward search latch of `incLoop`. -/
def upChain (ichg : Int) : Int :=
  if 500000 > ichg then 500000
  else if 900000 > ichg then 900000
  else if 1500000 > ichg then 1500000
  else if 3000000 > ichg then 3000000
  else ichg

/-- Closed form of `decLoop` on the reversed table. -/
def downChain (ichg : Int) : Int :=
  if 3000000 < ichg then 3000000
  else if 1500000 < ichg then 1500000
  else if 900000 < ichg then 900000
  else if 500000 < ichg then 500000
  else ichg

/-- One increase step as applied to the stored limit. -/
def incStep (apsd : Nat) (ichg : Int) : Int := min (upChain ichg) (ceilFor apsd)

/-- One decrease step as applied to the stored limit. -/
def downStep (ichg : Int) : Int := max CURRENT_FLOOR_UA (downChain ichg)

/-- The stored limit after `n` successful increase adjustments. -/
def climb (apsd : Nat) : Nat → Int → Int
  | 0, x => x
  | n + 1, x => incStep apsd (climb apsd n x)

/-! ### Concrete chargers for witnesses and counterexamples -/

/-- A generic charger: input power present, no fault, 0.5 A limit, no apsd
bits detected (default 1.5 A ceiling), charging enabled. -/
def chgA : SmbCharger :=
  { vbus_present := true, chg_ovp := false, icl_ua := 500000,
    apsd_bit := 0, charging_en := true }

/-- Like `chgA` but with an externally set 2 A limit, above the ceiling. -/
def chgB : SmbCharger :=
  { vbus_present := true, chg_ovp := false, icl_ua := 2000000,
    apsd_bit := 0, charging_en := true }

/-- Like `chgA` but a DCP (fast) charger with a 3 A ceiling. -/
def chgC : SmbCharger :=
  { vbus_present := true, chg_ovp := false, icl_ua := 500000,
    apsd_bit := DCP_CHARGER_BIT, charging_en := true }
/-- The exact driver state after `n ≥ 1` consecutive strictly-overvoltage
samples (last one `v`) processed from a freshly enabled state over a charger
that started with limit `icl0`, charger type `apsd0` and no fault. -/
def overWorld (apsd0 : Nat) (icl0 : Int) (v : Int) (n : Nat) : World :=
  ⟨{ uovp_cnt := n - 1, not_uovp_cnt := 0, vchg_mv := v,
     current_ua := climb apsd0 (n - 1) icl0,
     no_uovp_current_ua := 0, last_uovp_state := true, uovp_state := true,
     is_overvolt := true, lock_current := false, enable := true },
   { vbus_present := true, chg_ovp := decide (5 ≤ n),
     icl_ua := climb apsd0 n icl0,
     apsd_bit := apsd0, charging_en := decide (n ≤ 4) }⟩

set_option maxHeartbeats 1000000
set_option maxRecDepth 4000

theorem incLoop_eq (apsd : Nat) (ichg : Int) :
    incLoop op_cg_current_data apsd CURRENT_CEIL_DEFAULT ichg false =
      (ceilFor apsd, upChain ichg) := by
  have e26 : DCP_CHARGER_BIT ||| FLOAT_CHARGER_BIT ||| OCP_CHARGER_BIT = 26 := by decide
  by_cases h1 : apsd &&& 1 = 0 <;>
  by_cases h2 : apsd &&& 4 = 0 <;>
  by_cases h3 : apsd &&& 26 = 0 <;>
  · simp only [op_cg_current_data, incLoop, SDP_CHARGER_BIT, CDP_CHARGER_BIT,
      NO_CHARGER_BIT, e26, CURRENT_CEIL_DEFAULT, CURRENT_FLOOR_UA,
      Nat.and_zero, h1, h2, h3, ne_eq, not_true_eq_false, not_false_eq_true,
      ite_true, ite_false, if_true, if_false]
    unfold ceilFor upChain
    simp only [SDP_CHARGER_BIT, CDP_CHARGER_BIT, e26, CURRENT_CEIL_DEFAULT,
      CURRENT_FLOOR_UA, h1, h2, h3, ne_eq, not_true_eq_false,
      not_false_eq_true, ite_true, ite_false]
    split_ifs <;> simp_all only [Prod.mk.injEq]

theorem decLoop_eq (ichg : Int) :
    decLoop op_cg_current_data.reverse ichg = downChain ichg := by
  have e : op_cg_current_data.reverse =
      [⟨26, 3000000⟩, ⟨CDP_CHARGER_BIT, 1500000⟩, ⟨NO_CHARGER_BIT, 900000⟩,
        ⟨SDP_CHARGER_BIT, CURRENT_FLOOR_UA⟩] := by decide
  rw [e]
  simp only [decLoop, downChain, CURRENT_FLOOR_UA]

theorem ceilFor_cases (apsd : Nat) :
    ceilFor apsd = 500000 ∨ ceilFor apsd = 1500000 ∨ ceilFor apsd = 3000000 := by
  unfold ceilFor
  split_ifs <;> simp [CURRENT_FLOOR_UA, CURRENT_CEIL_DEFAULT]

theorem incStep_le_ceil (apsd : Nat) (ichg : Int) :
    incStep apsd ichg ≤ ceilFor apsd := min_le_right _ _

theorem incStep_gt (apsd : Nat) (ichg : Int) (h : ichg < ceilFor apsd) :
    ichg < incStep apsd ichg := by
  simp only [incStep, upChain]
  rcases ceilFor_cases apsd with hc | hc | hc <;> rw [hc] at h ⊢ <;>
    split_ifs <;> omega

theorem downStep_lt (ichg : Int) (h : CURRENT_FLOOR_UA < ichg) :
    downStep ichg < ichg := by
  simp only [downStep, downChain, CURRENT_FLOOR_UA] at h ⊢
  split_ifs <;> omega

theorem incStep_mem (apsd : Nat) (x : Int) :
    incStep apsd x = 500000 ∨ incStep apsd x = 900000 ∨
      incStep apsd x = 1500000 ∨ incStep apsd x = 3000000 := by
  rcases ceilFor_cases apsd with hc | hc | hc <;>
    simp only [incStep, hc, upChain] <;> split_ifs <;> omega

theorem climb_four_fix (apsd : Nat) (x : Int) :
    incStep apsd (climb apsd 4 x) = climb apsd 4 x := by
  have hmem := incStep_mem apsd x
  show incStep apsd (climb apsd 4 x) = climb apsd 4 x
  have e : climb apsd 4 x =
      incStep apsd (incStep apsd (incStep apsd (incStep apsd x))) := rfl
  rw [e]
  rcases ceilFor_cases apsd with hc | hc | hc <;>
    rcases hmem with h | h | h | h <;>
      rw [h] <;>
      simp only [incStep, hc, upChain] <;> norm_num

theorem climb_stable (apsd : Nat) (x : Int) (n : Nat) (h : 4 ≤ n) :
    climb apsd n x = climb apsd 4 x := by
  obtain ⟨m, rfl⟩ : ∃ m, n = 4 + m := ⟨n - 4, by omega⟩
  induction m with
  | zero => rfl
  | succ k ih =>
    have e : climb apsd (4 + (k + 1)) x = incStep apsd (climb apsd (4 + k) x) := rfl
    rw [e, ih (by omega), climb_four_fix]

theorem inc_dec_true_eq (d : OpData) (chg : SmbCharger) (sf : Bool) :
    op_cg_current_inc_dec d chg true false sf =
      (let t := incStep chg.apsd_bit chg.icl_ua
       let d1 : OpData := { d with current_ua := chg.icl_ua }
       let d2 : OpData :=
         if t = ceilFor chg.apsd_bit ∧ DETECT_CNT ≤ d1.not_uovp_cnt then
           { d1 with lock_current := true }
         else d1
       if chg.icl_ua ≠ t then
         (if sf then (negEINVAL, d2, chg)
          else (0, d2, { chg with icl_ua := t }))
       else (negEINVAL, d2, chg)) := by
  cases sf <;>
  · simp only [op_cg_current_inc_dec, smblib_get_icl_current, op_get_apsd_bit,
      incLoop_eq, op_cg_apply, op_cg_current_set, smblib_set_icl_current,
      incStep, Bool.false_eq_true, if_false, if_true, ite_true, ite_false]
    split_ifs <;> rfl

theorem inc_dec_false_eq (d : OpData) (chg : SmbCharger) (sf : Bool) :
    op_cg_current_inc_dec d chg false false sf =
      (let t := downStep chg.icl_ua
       let d1 : OpData := { d with current_ua := chg.icl_ua }
       if chg.icl_ua ≠ t then
         (if sf then (negEINVAL, d1, chg)
          else (0, d1, { chg with icl_ua := t }))
       else (negEINVAL, d1, chg)) := by
  cases sf <;>
  · simp only [op_cg_current_inc_dec, smblib_get_icl_current, decLoop_eq,
      op_cg_apply, op_cg_current_set, smblib_set_icl_current, downStep,
      Bool.false_eq_true, if_false, if_true, ite_true, ite_false]
    all_goals split_ifs <;> rfl

theorem inc_dec_getFail_eq (d : OpData) (chg : SmbCharger) (incr sf : Bool) :
    op_cg_current_inc_dec d chg incr true sf = (negEINVAL, d, chg) := rfl

theorem over_base (apsd0 : Nat) (icl0 : Int) (v : Int)
    (hv : v > CHG_SOFT_OVP_MV) :
    op_check_charger_uovp
        (enabledWorld ⟨true, false, icl0, apsd0, true⟩) v false false =
      overWorld apsd0 icl0 v 1 := by
  have hd : decide (v > CHG_SOFT_OVP_MV) = true := decide_eq_true hv
  simp only [op_check_charger_uovp, enabledWorld, opDataZero,
    op_cg_handle_uovp, op_cg_detect_uovp, hd,
    op_cg_cutoff_on_err, op_cg_uovp_cutoff, overWorld, climb, DETECT_CNT]
  norm_num
  simp only [inc_dec_true_eq]
  by_cases hne : icl0 = incStep apsd0 icl0
  · rw [← hne]
    simp [negEINVAL, DETECT_CNT]
  · simp [negEINVAL, DETECT_CNT, hne]

theorem over_step (apsd0 : Nat) (icl0 : Int) (v v' : Int) (n : Nat)
    (hn : 1 ≤ n) (hv' : v' > CHG_SOFT_OVP_MV) :
    op_check_charger_uovp (overWorld apsd0 icl0 v n) v' false false =
      overWorld apsd0 icl0 v' (n + 1) := by
  have hd : decide (v' > CHG_SOFT_OVP_MV) = true := decide_eq_true hv'
  have hd2 : decide (¬ (v' < CHG_SOFT_OVP_MV - CHG_SOFT_OVP_HYST_MV)) = true :=
    decide_eq_true
      (by simp only [CHG_SOFT_OVP_MV, CHG_SOFT_OVP_HYST_MV] at hv' ⊢; omega)
  have hcnt : n - 1 + 1 = n := by omega
  have hcl : incStep apsd0 (climb apsd0 n icl0) = climb apsd0 (n + 1) icl0 := rfl
  have hrel : CHG_SOFT_OVP_MV ≤ v' + CHG_SOFT_OVP_HYST_MV := by
    simp only [CHG_SOFT_OVP_MV, CHG_SOFT_OVP_HYST_MV] at hv' ⊢; omega
  simp only [op_check_charger_uovp, overWorld, op_cg_handle_uovp,
    op_cg_detect_uovp, op_cg_detect_normal, hd, hd2, op_cg_cutoff_on_err,
    op_cg_uovp_cutoff, op_cg_uovp_restore, DETECT_CNT]
  norm_num
  simp only [inc_dec_true_eq, hcl, hcnt, DETECT_CNT]
  norm_num
  by_cases hnn : climb apsd0 n icl0 = climb apsd0 (n + 1) icl0
  · by_cases h5 : 5 ≤ n
    · have e1 : decide (5 ≤ n) = true := decide_eq_true h5
      have e2 : decide (5 ≤ n + 1) = true := decide_eq_true (by omega)
      have e3 : decide (n ≤ 4) = false := decide_eq_false (by omega)
      have e4 : decide (n + 1 ≤ 4) = false := decide_eq_false (by omega)
      simp [hnn, e1, e2, e3, e4, negEINVAL, hrel] <;> omega
    · by_cases h4 : n ≤ 3
      · have e1 : decide (5 ≤ n) = false := decide_eq_false (by omega)
        have e2 : decide (5 ≤ n + 1) = false := decide_eq_false (by omega)
        have e3 : decide (n ≤ 4) = true := decide_eq_true (by omega)
        have e4 : decide (n + 1 ≤ 4) = true := decide_eq_true (by omega)
        simp [hnn, e1, e2, e3, e4, negEINVAL, h4, hrel] <;> omega
      · have hn4 : n = 4 := by omega
        subst hn4
        simp [hnn, negEINVAL, hrel, op_charging_en] <;> omega
  · have h4 : n ≤ 3 := by
      by_contra hc
      exact hnn (by rw [climb_stable apsd0 icl0 n (by omega),
        climb_stable apsd0 icl0 (n + 1) (by omega)])
    have e1 : decide (5 ≤ n) = false := decide_eq_false (by omega)
    have e2 : decide (5 ≤ n + 1) = false := decide_eq_false (by omega)
    have e3 : decide (n ≤ 4) = true := decide_eq_true (by omega)
    have e4 : decide (n + 1 ≤ 4) = true := decide_eq_true (by omega)
    simp [hnn, e1, e2, e3, e4, negEINVAL, hrel, op_charging_en] <;> omega

theorem over_run (apsd0 : Nat) (icl0 : Int) :
    ∀ (vs : List Int), (∀ x ∈ vs, x > CHG_SOFT_OVP_MV) →
      ∀ (v : Int) (n : Nat), 1 ≤ n →
        ∃ v2, runVolts (overWorld apsd0 icl0 v n) vs =
          overWorld apsd0 icl0 v2 (n + vs.length) := by
  intro vs
  induction vs with
  | nil => intro _ v n _; exact ⟨v, by simp [runVolts]⟩
  | cons x xs ih =>
    intro hall v n hn
    have hx : x > CHG_SOFT_OVP_MV := hall x (by simp)
    have hstep := over_step apsd0 icl0 v x n hn hx
    obtain ⟨v2, hrun⟩ := ih (fun y hy => hall y (by simp [hy])) x (n + 1) (by omega)
    refine ⟨v2, ?_⟩
    have : runVolts (overWorld apsd0 icl0 v n) (x :: xs) =
        runVolts (op_check_charger_uovp (overWorld apsd0 icl0 v n) x false false) xs := rfl
    rw [this, hstep, hrun]
    congr 1
    simp [List.length_cons]
    omega

/-- C1 counterexample: from a freshly enabled state over `chgA`, the second
consecutive 6000 mV over-voltage sample passes the strict fault check, is not
a first fault sample after a normal run (`last_uovp_state` is already true),
and the Current Controller INCREASES the limit (900000 → 1500000 uA) instead
of decreasing it as the claim demands. -/
theorem c1_counterexample :
    (runVolts (enabledWorld chgA) [6000]).d.last_uovp_state = true ∧
    (6000 : Int) > CHG_SOFT_OVP_MV ∧
    (runVolts (enabledWorld chgA) [6000, 6000]).chg.icl_ua >
      (runVolts (enabledWorld chgA) [6000]).chg.icl_ua := by
  refine ⟨?_, ?_, ?_⟩ <;> decide

/-- C1 (amended): on a strict-fault sample that is not the first fault after
a normal run, the Current Controller steps the current limit in the fault's
OWN polarity: it increases the limit on an over-voltage sample (while below
the ceiling) and decreases it on an under-voltage sample (while above the
floor). -/
theorem c1_amended (w : World) (v : Int)
    (h_en : w.d.enable = true) (h_vb : w.chg.vbus_present = true)
    (h_last : w.d.last_uovp_state = true) :
    (v > CHG_SOFT_OVP_MV → w.chg.icl_ua < ceilFor w.chg.apsd_bit →
      (op_check_charger_uovp w v false false).chg.icl_ua > w.chg.icl_ua) ∧
    (v ≤ CHG_SOFT_UVP_MV → w.chg.icl_ua > CURRENT_FLOOR_UA →
      (op_check_charger_uovp w v false false).chg.icl_ua < w.chg.icl_ua) := by
  obtain ⟨⟨c1, c2, c3, c4, c5, c6, c7, c8, c9, c10⟩,
    ⟨b1, b2, icl, apsd, b5⟩⟩ := w
  simp only at h_en h_vb h_last
  subst h_en h_vb h_last
  constructor
  · intro hv hc
    replace hc : icl < ceilFor apsd := hc
    have hd : decide (v > CHG_SOFT_OVP_MV) = true := decide_eq_true hv
    have hrel : CHG_SOFT_OVP_MV ≤ v + CHG_SOFT_OVP_HYST_MV := by
      simp only [CHG_SOFT_OVP_MV, CHG_SOFT_OVP_HYST_MV] at hv ⊢; omega
    have hlt : icl < incStep apsd icl := incStep_gt apsd icl hc
    have hne : icl ≠ incStep apsd icl := ne_of_lt hlt
    by_cases hc2 : c2 = 0
    · subst hc2
      simp only [op_check_charger_uovp, op_cg_handle_uovp,
        op_cg_detect_uovp, op_cg_detect_normal, hd, op_cg_cutoff_on_err,
        op_cg_uovp_cutoff, op_cg_uovp_restore, DETECT_CNT]
      norm_num
      simp only [inc_dec_true_eq]
      simp [hne, hrel, negEINVAL, DETECT_CNT] <;> omega
    · simp only [op_check_charger_uovp, op_cg_handle_uovp,
        op_cg_detect_uovp, op_cg_detect_normal, hd, op_cg_cutoff_on_err,
        op_cg_uovp_cutoff, op_cg_uovp_restore, DETECT_CNT]
      norm_num
      simp [hne, hrel, negEINVAL, hc2, DETECT_CNT, inc_dec_true_eq] <;> omega
  · intro hv hf
    replace hf : icl > CURRENT_FLOOR_UA := hf
    have hd : decide (v > CHG_SOFT_OVP_MV) = false :=
      decide_eq_false
        (by simp only [CHG_SOFT_OVP_MV, CHG_SOFT_UVP_MV] at hv ⊢; omega)
    have hd2 : decide (v ≤ CHG_SOFT_UVP_MV) = true := decide_eq_true hv
    have hrel : ¬ (v > CHG_SOFT_UVP_MV + CHG_SOFT_OVP_HYST_MV) := by
      simp only [CHG_SOFT_UVP_MV, CHG_SOFT_OVP_HYST_MV] at hv ⊢; omega
    have hrelpos : v ≤ CHG_SOFT_UVP_MV + CHG_SOFT_OVP_HYST_MV := by
      simp only [CHG_SOFT_UVP_MV, CHG_SOFT_OVP_HYST_MV] at hv ⊢; omega
    have hrel2 : v < CHG_SOFT_OVP_MV - CHG_SOFT_OVP_HYST_MV := by
      simp only [CHG_SOFT_OVP_MV, CHG_SOFT_OVP_HYST_MV,
        CHG_SOFT_UVP_MV] at hv ⊢; omega
    have hlt : downStep icl < icl := downStep_lt icl hf
    have hne : icl ≠ downStep icl := (ne_of_lt hlt).symm
    by_cases hc2 : c2 = 0
    · subst hc2
      simp only [op_check_charger_uovp, op_cg_handle_uovp,
        op_cg_detect_uovp, op_cg_detect_normal, hd, hd2,
        op_cg_cutoff_on_err, op_cg_uovp_cutoff, op_cg_uovp_restore,
        DETECT_CNT]
      norm_num
      simp only [inc_dec_false_eq]
      simp [hne, hrel, hrelpos, hrel2, negEINVAL, DETECT_CNT] <;> omega
    · simp only [op_check_charger_uovp, op_cg_handle_uovp,
        op_cg_detect_uovp, op_cg_detect_normal, hd, hd2,
        op_cg_cutoff_on_err, op_cg_uovp_cutoff, op_cg_uovp_restore,
        DETECT_CNT]
      norm_num
      simp [hne, hrel, hrelpos, hrel2, negEINVAL, hc2, DETECT_CNT,
        inc_dec_false_eq] <;> omega

/-- C1 amended witness at a concrete over-voltage input. -/
theorem c1_amended_witness :
    ((runVolts (enabledWorld chgA) [6000]).d.enable = true ∧
     (runVolts (enabledWorld chgA) [6000]).chg.vbus_present = true ∧
     (runVolts (enabledWorld chgA) [6000]).d.last_uovp_state = true ∧
     (6000 : Int) > CHG_SOFT_OVP_MV ∧
     (runVolts (enabledWorld chgA) [6000]).chg.icl_ua <
       ceilFor (runVolts (enabledWorld chgA) [6000]).chg.apsd_bit) ∧
    (op_check_charger_uovp (runVolts (enabledWorld chgA) [6000]) 6000
        false false).chg.icl_ua >
      (runVolts (enabledWorld chgA) [6000]).chg.icl_ua :=
  ⟨⟨by decide, by decide, by decide, by decide, by decide⟩,
    (c1_amended (runVolts (enabledWorld chgA) [6000]) 6000
      (by decide) (by decide) (by decide)).1 (by decide) (by decide)⟩

/-- C2 counterexample: four consecutive samples at 6000 mV (strictly above
`OVP_THRESHOLD`) from a freshly enabled state leave charging enabled and the
global fault flag clear — the cutoff does not happen after 4 samples. -/
theorem c2_counterexample :
    (∀ x ∈ ([6000, 6000, 6000, 6000] : List Int), x > CHG_SOFT_OVP_MV) ∧
    (runVolts (enabledWorld chgA) [6000, 6000, 6000, 6000]).chg.charging_en
        = true ∧
    (runVolts (enabledWorld chgA) [6000, 6000, 6000, 6000]).chg.chg_ovp
        = false := by
  refine ⟨?_, ?_, ?_⟩ <;> decide

/-- C2 (amended): for every voltage sequence held strictly above
`OVP_THRESHOLD` processed from a freshly enabled state (whatever the
charger's starting limit and type), charging is disabled and the global
fault flag is set exactly after the 5th sample — the fault streak only
counts from the second consecutive fault sample and cutoff requires the
streak to exceed 3 — and not before; both persist idempotently thereafter. -/
theorem c2_amended (chg0 : SmbCharger) (hvb : chg0.vbus_present = true)
    (hovp : chg0.chg_ovp = false) (hen : chg0.charging_en = true)
    (vs : List Int) (hall : ∀ x ∈ vs, x > CHG_SOFT_OVP_MV) :
    (runVolts (enabledWorld chg0) vs).chg.chg_ovp = decide (5 ≤ vs.length) ∧
    (runVolts (enabledWorld chg0) vs).chg.charging_en =
      decide (vs.length ≤ 4) := by
  obtain ⟨vb, ovp, icl0, apsd0, en⟩ := chg0
  simp only at hvb hovp hen
  subst hvb hovp hen
  cases vs with
  | nil => simp [runVolts, enabledWorld, opDataZero]
  | cons x xs =>
    have hx : x > CHG_SOFT_OVP_MV := hall x (by simp)
    have h1 : runVolts (enabledWorld ⟨true, false, icl0, apsd0, true⟩)
        (x :: xs) = runVolts (overWorld apsd0 icl0 x 1) xs := by
      show runVolts (op_check_charger_uovp _ x false false) xs = _
      rw [over_base apsd0 icl0 x hx]
    obtain ⟨v2, h2⟩ :=
      over_run apsd0 icl0 xs (fun y hy => hall y (by simp [hy])) x 1 (by omega)
    rw [h1, h2]
    simp only [overWorld, List.length_cons]
    constructor <;> rw [decide_eq_decide] <;> omega

/-- C2 amended witness: five samples at 6000 mV cut charging off and set the
fault flag. -/
theorem c2_amended_witness :
    (∀ x ∈ ([6000, 6000, 6000, 6000, 6000] : List Int), x > CHG_SOFT_OVP_MV) ∧
    ((runVolts (enabledWorld chgA) [6000, 6000, 6000, 6000, 6000]).chg.chg_ovp
        = decide (5 ≤ ([6000, 6000, 6000, 6000, 6000] : List Int).length) ∧
      (runVolts (enabledWorld chgA)
          [6000, 6000, 6000, 6000, 6000]).chg.charging_en
        = decide (([6000, 6000, 6000, 6000, 6000] : List Int).length ≤ 4)) :=
  ⟨by decide, c2_amended chgA rfl rfl rfl _ (by decide)⟩

theorem ceiling_for_spec_eq (apsd : Nat) : ceiling_for_spec apsd = ceilFor apsd := by
  have hm : apsd &&& 1 = apsd % 2 := Nat.and_one_is_mod apsd
  by_cases h1 : apsd % 2 = 1 <;>
  by_cases h2 : apsd &&& 4 = 0 <;>
  by_cases h3 : apsd &&& 26 = 0 <;>
  · have e26 : DCP_CHARGER_BIT ||| FLOAT_CHARGER_BIT ||| OCP_CHARGER_BIT = 26 := by
      decide
    have h1' : ¬ (apsd % 2 = 0) ∨ (apsd % 2 = 0) := by omega
    simp [ceiling_for_spec, op_cg_current_data, listMax, ceilFor,
      SDP_CHARGER_BIT, CDP_CHARGER_BIT, NO_CHARGER_BIT, e26,
      CURRENT_CEIL_DEFAULT, CURRENT_FLOOR_UA, Nat.and_zero, List.filter,
      hm, h1, h2, h3]

/-- C6: the stepped table search of `op_cg_current_inc_dec` computes, for an
increase, the smallest table max-current strictly greater than the observed
current clamped to the ceiling for the charger-type bitmask, and, for a
decrease, the largest table max-current strictly smaller than the observed
current floored at the lowest table value (500000 uA); when no such entry
exists the result is the clamp bound itself. -/
theorem inc_dec_target_true (apsd : Nat) (ichg : Int) :
    inc_dec_target apsd ichg true = min (upChain ichg) (ceilFor apsd) := by
  simp [inc_dec_target, incLoop_eq]

theorem inc_dec_target_false (apsd : Nat) (ichg : Int) :
    inc_dec_target apsd ichg false = downStep ichg := by
  simp [inc_dec_target, decLoop_eq, downStep]

theorem c6_next_step (apsd : Nat) (ichg : Int) (increase : Bool) :
    inc_dec_target apsd ichg increase = next_step_spec apsd ichg increase := by
  cases increase
  · rw [inc_dec_target_false]
    by_cases h1 : (500000 : Int) < ichg <;>
    by_cases h2 : (900000 : Int) < ichg <;>
    by_cases h3 : (1500000 : Int) < ichg <;>
    by_cases h4 : (3000000 : Int) < ichg <;>
    · simp [next_step_spec, tableMaxes, op_cg_current_data,
        listMax, listMin, downStep, downChain, CURRENT_FLOOR_UA,
        List.filter, h1, h2, h3, h4] <;> omega
  · rw [inc_dec_target_true]
    rcases ceilFor_cases apsd with hc | hc | hc <;>
    by_cases h1 : ichg < (500000 : Int) <;>
    by_cases h2 : ichg < (900000 : Int) <;>
    by_cases h3 : ichg < (1500000 : Int) <;>
    by_cases h4 : ichg < (3000000 : Int) <;>
    · simp [next_step_spec, tableMaxes, op_cg_current_data,
        listMax, listMin, upChain, ceiling_for_spec_eq, hc,
        CURRENT_FLOOR_UA, List.filter, h1, h2, h3, h4] <;> omega

/-- C5 counterexample: a run in which the fast-restore path re-applies a
remembered `no_uovp_current_ua` of 2000000 uA, above the 1500000 uA ceiling
for the charger type — the applied limit exceeds `ceiling_for`. -/
theorem c5_counterexample :
    (runVolts (enabledWorld chgB)
        [6000, 5000, 5000, 5000, 5000, 6000]).chg.icl_ua >
      ceilFor (runVolts (enabledWorld chgB)
        [6000, 5000, 5000, 5000, 5000, 6000]).chg.apsd_bit := by
  decide

theorem inc_dec_false_icl (d : OpData) (chg : SmbCharger) (gf sf : Bool) :
    (op_cg_current_inc_dec d chg false gf sf).2.2.icl_ua = chg.icl_ua ∨
      (op_cg_current_inc_dec d chg false gf sf).2.2.icl_ua =
        downStep chg.icl_ua := by
  cases gf
  · rw [inc_dec_false_eq]
    cases sf <;> simp only [] <;> split_ifs <;>
      first
        | exact Or.inl rfl
        | exact Or.inr rfl
  · rw [inc_dec_getFail_eq]
    exact Or.inl rfl

/-- C5 (amended): whenever the stepped path of the Current Controller
actually changes the external current limit, an increase step writes at
most `ceiling_for` of the charger-type bitmask and a decrease step writes
at least the 500000 uA floor. The decrease step is not bounded above by the
ceiling — the final conjunct shows a decrease from an externally set
4000000 uA limit writing 3000000 uA under the default 1500000 uA ceiling —
and the unclamped fast-restore path obeys neither bound, as the
counterexample shows. -/
theorem c5_amended (d : OpData) (chg : SmbCharger) (incr gf sf : Bool)
    (hch : (op_cg_current_inc_dec d chg incr gf sf).2.2.icl_ua ≠ chg.icl_ua) :
    ((incr = true →
        (op_cg_current_inc_dec d chg incr gf sf).2.2.icl_ua ≤
          ceilFor chg.apsd_bit) ∧
      (incr = false →
        CURRENT_FLOOR_UA ≤
          (op_cg_current_inc_dec d chg incr gf sf).2.2.icl_ua)) ∧
    (op_cg_current_inc_dec opDataZero { chgB with icl_ua := 4000000 }
        false false false).2.2.icl_ua >
      ceilFor ({ chgB with icl_ua := 4000000 } : SmbCharger).apsd_bit := by
  refine ⟨⟨?_, ?_⟩, by decide⟩
  · rintro rfl
    cases gf
    · rw [inc_dec_true_eq] at hch ⊢
      cases sf
      · by_cases hne : chg.icl_ua ≠ incStep chg.apsd_bit chg.icl_ua
        · simpa [hne] using incStep_le_ceil chg.apsd_bit chg.icl_ua
        · simp [hne] at hch
      · simp at hch
    · rw [inc_dec_getFail_eq] at hch
      exact absurd rfl hch
  · rintro rfl
    rcases inc_dec_false_icl d chg gf sf with h | h
    · exact absurd h hch
    · rw [h]
      exact le_max_left CURRENT_FLOOR_UA (downChain chg.icl_ua)

/-- C5 amended witness: an increase step from 500000 uA writes 900000 uA,
within the default 1500000 uA ceiling, and a decrease step from 2000000 uA
writes 1500000 uA, above the 500000 uA floor. -/
theorem c5_amended_witness :
    ((op_cg_current_inc_dec opDataZero chgA true false false).2.2.icl_ua ≠
        chgA.icl_ua ∧
      (op_cg_current_inc_dec opDataZero chgA true false false).2.2.icl_ua ≤
        ceilFor chgA.apsd_bit) ∧
    ((op_cg_current_inc_dec opDataZero chgB false false false).2.2.icl_ua ≠
        chgB.icl_ua ∧
      CURRENT_FLOOR_UA ≤
        (op_cg_current_inc_dec opDataZero chgB false false false).2.2.icl_ua) :=
  ⟨⟨by decide, (c5_amended opDataZero chgA true false false (by decide)).1.1 rfl⟩,
   ⟨by decide, (c5_amended opDataZero chgB false false false (by decide)).1.2 rfl⟩⟩

/-- C8: a sample whose voltage lies in the hysteresis band (between the
relaxed and strict thresholds on either flavor) after a confirmed fault
leaves the recorded verdict `uovp_state` unchanged at true: both passes
return without recomputing it. -/
theorem c8_hysteresis_hold (w : World) (v : Int) (gf sf : Bool)
    (hprev : w.d.uovp_state = true)
    (hband : (CHG_SOFT_OVP_MV - CHG_SOFT_OVP_HYST_MV ≤ v ∧
        v ≤ CHG_SOFT_OVP_MV) ∨
      (CHG_SOFT_UVP_MV < v ∧ v ≤ CHG_SOFT_UVP_MV + CHG_SOFT_OVP_HYST_MV)) :
    (op_check_charger_uovp w v gf sf).d.uovp_state = true := by
  obtain ⟨⟨c1, c2, c3, c4, c5, c6, c7, c8, c9, c10⟩,
    ⟨b1, b2, icl, apsd, b5⟩⟩ := w
  simp only at hprev
  subst hprev
  have hd1 : decide (v > CHG_SOFT_OVP_MV) = false := by
    rcases hband with ⟨h1, h2⟩ | ⟨h1, h2⟩ <;>
    · apply decide_eq_false
      simp only [CHG_SOFT_OVP_MV, CHG_SOFT_UVP_MV,
        CHG_SOFT_OVP_HYST_MV] at h1 h2 ⊢
      omega
  have hd2 : decide (v ≤ CHG_SOFT_UVP_MV) = false := by
    rcases hband with ⟨h1, h2⟩ | ⟨h1, h2⟩ <;>
    · apply decide_eq_false
      simp only [CHG_SOFT_OVP_MV, CHG_SOFT_UVP_MV,
        CHG_SOFT_OVP_HYST_MV] at h1 h2 ⊢
      omega
  have hd3 : (¬ (v < CHG_SOFT_OVP_MV - CHG_SOFT_OVP_HYST_MV)) ∨
      (¬ (v > CHG_SOFT_UVP_MV + CHG_SOFT_OVP_HYST_MV)) := by
    rcases hband with ⟨h1, h2⟩ | ⟨h1, h2⟩
    · left
      simp only [CHG_SOFT_OVP_MV, CHG_SOFT_OVP_HYST_MV] at h1 ⊢
      omega
    · right
      simp only [CHG_SOFT_UVP_MV, CHG_SOFT_OVP_HYST_MV] at h2 ⊢
      omega
  cases c10
  · simp [op_check_charger_uovp]
  · cases b1
    · simp [op_check_charger_uovp]
    · cases c6 <;>
      · rcases hd3 with hd3 | hd3 <;>
        · simp [op_check_charger_uovp, op_cg_handle_uovp, op_cg_detect_uovp,
            op_cg_detect_normal, hd1, hd2, hd3, apply_ite]

/-- C8 witness: a 5750 mV sample (`OVP_THRESHOLD - 50`) after a confirmed
over-voltage fault keeps the fault verdict. -/
theorem c8_hysteresis_hold_witness :
    ((runVolts (enabledWorld chgA) [6000]).d.uovp_state = true ∧
      ((CHG_SOFT_OVP_MV - CHG_SOFT_OVP_HYST_MV ≤ (5750 : Int) ∧
          (5750 : Int) ≤ CHG_SOFT_OVP_MV) ∨
        (CHG_SOFT_UVP_MV < (5750 : Int) ∧
          (5750 : Int) ≤ CHG_SOFT_UVP_MV + CHG_SOFT_OVP_HYST_MV))) ∧
    (op_check_charger_uovp (runVolts (enabledWorld chgA) [6000]) 5750
        false false).d.uovp_state = true :=
  ⟨⟨by decide, by decide⟩,
    c8_hysteresis_hold (runVolts (enabledWorld chgA) [6000]) 5750 false false
      (by decide) (by decide)⟩

/-- C7 counterexample: six alternating over/under samples grow the fault
streak to 5 while every adjustment succeeds; the 7th sample's current-limit
read FAILS, no write is issued (the limit is unchanged), yet the failure
escalates to cutoff: charging is disabled and the fault flag set — the claim
says a read failure leaves charging untouched. -/
theorem c7_counterexample :
    (runSamples (enabledWorld chgC)
      [(6000, false, false), (4000, false, false), (6000, false, false),
       (4000, false, false), (6000, false, false), (4000, false, false),
       (6000, true, false)]).chg.charging_en = false ∧
    (runSamples (enabledWorld chgC)
      [(6000, false, false), (4000, false, false), (6000, false, false),
       (4000, false, false), (6000, false, false), (4000, false, false),
       (6000, true, false)]).chg.chg_ovp = true ∧
    (runSamples (enabledWorld chgC)
      [(6000, false, false), (4000, false, false), (6000, false, false),
       (4000, false, false), (6000, false, false), (4000, false, false),
       (6000, true, false)]).chg.icl_ua =
      (runSamples (enabledWorld chgC)
        [(6000, false, false), (4000, false, false), (6000, false, false),
         (4000, false, false), (6000, false, false),
         (4000, false, false)]).chg.icl_ua := by
  refine ⟨?_, ?_, ?_⟩ <;> decide

/-- C7 (amended): a failed current-limit read makes `op_cg_current_inc_dec`
abort with an error, leaving both the protection data and the charger
untouched (no write); on a strict-fault sample, however, the error feeds the
cutoff evaluation, so the current limit still never changes but charging is
disabled exactly when the global flag is clear and the incremented fault
streak exceeds the debounce threshold. -/
theorem c7_amended (d : OpData) (chg : SmbCharger) (incr sf : Bool)
    (w : World) (v : Int) (sf2 : Bool)
    (h_en : w.d.enable = true) (h_vb : w.chg.vbus_present = true)
    (h_last : w.d.last_uovp_state = true) (hv : v > CHG_SOFT_OVP_MV) :
    ((op_cg_current_inc_dec d chg incr true sf).1 ≠ 0 ∧
      (op_cg_current_inc_dec d chg incr true sf).2.1 = d ∧
      (op_cg_current_inc_dec d chg incr true sf).2.2 = chg) ∧
    (op_check_charger_uovp w v true sf2).chg.icl_ua = w.chg.icl_ua ∧
    (op_check_charger_uovp w v true sf2).chg.charging_en =
      (if w.chg.chg_ovp = false ∧ DETECT_CNT < w.d.uovp_cnt + 1 then false
       else w.chg.charging_en) := by
  refine ⟨⟨(by decide : negEINVAL ≠ (0 : Int)), rfl, rfl⟩, ?_⟩
  obtain ⟨⟨c1, c2, c3, c4, c5, c6, c7, c8, c9, c10⟩,
    ⟨b1, b2, icl, apsd, b5⟩⟩ := w
  simp only at h_en h_vb h_last
  subst h_en h_vb h_last
  have hd : decide (v > CHG_SOFT_OVP_MV) = true := decide_eq_true hv
  have hrel : CHG_SOFT_OVP_MV ≤ v + CHG_SOFT_OVP_HYST_MV := by
    simp only [CHG_SOFT_OVP_MV, CHG_SOFT_OVP_HYST_MV] at hv ⊢; omega
  simp only [DETECT_CNT]
  by_cases hdc : 3 < c1 + 1 <;>
  have hdc2 : (c1 + 1 ≤ 3) ∨ ¬ (c1 + 1 ≤ 3) := by omega
  all_goals
    by_cases hc2 : c2 = 0 <;>
    cases b2 <;>
    · simp only [op_check_charger_uovp, op_cg_handle_uovp, op_cg_detect_uovp,
        op_cg_detect_normal, hd, op_cg_cutoff_on_err, op_cg_uovp_cutoff,
        op_cg_uovp_restore, inc_dec_getFail_eq, op_charging_en, DETECT_CNT]
      norm_num
      simp [hrel, negEINVAL, hc2, hdc, apply_ite, op_charging_en,
        op_cg_uovp_cutoff, DETECT_CNT]
      try omega

/-- C7 amended witness: after six alternating fault samples the streak is 5;
a read-failing 7th sample leaves the limit unchanged and disables charging. -/
theorem c7_amended_witness :
    ((runSamples (enabledWorld chgC)
        [(6000, false, false), (4000, false, false), (6000, false, false),
         (4000, false, false), (6000, false, false),
         (4000, false, false)]).d.enable = true ∧
      (6000 : Int) > CHG_SOFT_OVP_MV) ∧
    ((op_cg_current_inc_dec opDataZero chgA true true false).2.2 = chgA) ∧
    (op_check_charger_uovp
        (runSamples (enabledWorld chgC)
          [(6000, false, false), (4000, false, false), (6000, false, false),
           (4000, false, false), (6000, false, false), (4000, false, false)])
        6000 true false).chg.charging_en =
      (if (runSamples (enabledWorld chgC)
            [(6000, false, false), (4000, false, false), (6000, false, false),
             (4000, false, false), (6000, false, false),
             (4000, false, false)]).chg.chg_ovp = false ∧
          DETECT_CNT <
            (runSamples (enabledWorld chgC)
              [(6000, false, false), (4000, false, false), (6000, false, false),
               (4000, false, false), (6000, false, false),
               (4000, false, false)]).d.uovp_cnt + 1 then false
       else
        (runSamples (enabledWorld chgC)
          [(6000, false, false), (4000, false, false), (6000, false, false),
           (4000, false, false), (6000, false, false),
           (4000, false, false)]).chg.charging_en) :=
  ⟨⟨by decide, by decide⟩,
    (c7_amended opDataZero chgA true false
      (runSamples (enabledWorld chgC)
        [(6000, false, false), (4000, false, false), (6000, false, false),
         (4000, false, false), (6000, false, false), (4000, false, false)])
      6000 false (by decide) (by decide) (by decide) (by decide)).1.2.2,
    (c7_amended opDataZero chgA true false
      (runSamples (enabledWorld chgC)
        [(6000, false, false), (4000, false, false), (6000, false, false),
         (4000, false, false), (6000, false, false), (4000, false, false)])
      6000 false (by decide) (by decide) (by decide) (by decide)).2.2⟩

/-- C3 counterexample: a recovery run sets `lock_current`, and a first fault
sample re-applies the remembered current and keeps the lock; the NEXT
over-voltage sample still increases the limit from 500000 to 900000 uA even
though `lock_current` is true — automatic increases are not all suppressed. -/
theorem c3_counterexample :
    (runVolts (enabledWorld chgA) [5000, 5000, 5000, 5000, 6000]).d.lock_current
        = true ∧
    (runVolts (enabledWorld chgA) [5000, 5000, 5000, 5000, 6000, 6000]).chg.icl_ua
        > (runVolts (enabledWorld chgA) [5000, 5000, 5000, 5000, 6000]).chg.icl_ua := by
  constructor <;> decide

theorem locked_nonfault_step (w : World) (v : Int) (gf sf : Bool)
    (hlock : w.d.lock_current = true)
    (hnf : ¬ (v > CHG_SOFT_OVP_MV ∨ v ≤ CHG_SOFT_UVP_MV)) :
    (op_check_charger_uovp w v gf sf).chg = w.chg ∧
    (op_check_charger_uovp w v gf sf).d.lock_current = true := by
  obtain ⟨⟨c1, c2, c3, c4, c5, c6, c7, c8, c9, c10⟩,
    ⟨b1, b2, icl, apsd, b5⟩⟩ := w
  simp only at hlock
  subst hlock
  push_neg at hnf
  have hd1 : decide (v > CHG_SOFT_OVP_MV) = false := decide_eq_false (by omega)
  have hd2 : decide (v ≤ CHG_SOFT_UVP_MV) = false := decide_eq_false (by omega)
  cases c10
  · simp [op_check_charger_uovp]
  · cases b1
    · simp [op_check_charger_uovp]
    · cases c6 <;> cases c7 <;>
      · simp [op_check_charger_uovp, op_cg_handle_uovp, op_cg_detect_uovp,
          op_cg_detect_normal, hd1, hd2, apply_ite]

/-- C3 (amended): once `current_locked` is true, any sequence of samples
that do not pass the strict fault check (definitely-normal or hysteresis
band) leaves the whole external charger state — in particular the current
limit — unchanged and the lock set; only strict-fault samples may still
adjust current (the counterexample shows an over-voltage sample increasing
it), and only disabling protection clears the lock. -/
theorem c3_amended (w : World) (hlock : w.d.lock_current = true)
    (vs : List (Int × Bool × Bool))
    (hnf : ∀ p ∈ vs, ¬ (p.1 > CHG_SOFT_OVP_MV ∨ p.1 ≤ CHG_SOFT_UVP_MV)) :
    (runSamples w vs).chg = w.chg ∧
    (runSamples w vs).d.lock_current = true := by
  induction vs generalizing w with
  | nil => exact ⟨rfl, hlock⟩
  | cons p ps ih =>
    have h1 := locked_nonfault_step w p.1 p.2.1 p.2.2 hlock
      (hnf p (by simp))
    have h2 := ih (op_check_charger_uovp w p.1 p.2.1 p.2.2) h1.2
      (fun q hq => hnf q (by simp [hq]))
    refine ⟨?_, h2.2⟩
    calc (runSamples w (p :: ps)).chg
        = (runSamples (op_check_charger_uovp w p.1 p.2.1 p.2.2) ps).chg := rfl
      _ = (op_check_charger_uovp w p.1 p.2.1 p.2.2).chg := h2.1
      _ = w.chg := h1.1

/-- C3 amended witness: from the locked state of the counterexample run, a
definitely-normal and a hysteresis-band sample change nothing. -/
theorem c3_amended_witness :
    ((runVolts (enabledWorld chgA)
        [5000, 5000, 5000, 5000, 6000]).d.lock_current = true ∧
      (∀ p ∈ ([(5000, false, false), (5750, false, false)] :
          List (Int × Bool × Bool)),
        ¬ (p.1 > CHG_SOFT_OVP_MV ∨ p.1 ≤ CHG_SOFT_UVP_MV))) ∧
    ((runSamples (runVolts (enabledWorld chgA) [5000, 5000, 5000, 5000, 6000])
        [(5000, false, false), (5750, false, false)]).chg =
      (runVolts (enabledWorld chgA) [5000, 5000, 5000, 5000, 6000]).chg ∧
     (runSamples (runVolts (enabledWorld chgA) [5000, 5000, 5000, 5000, 6000])
        [(5000, false, false), (5750, false, false)]).d.lock_current = true) :=
  ⟨⟨by decide, by decide⟩,
    c3_amended (runVolts (enabledWorld chgA) [5000, 5000, 5000, 5000, 6000])
      (by decide) [(5000, false, false), (5750, false, false)] (by decide)⟩

/-- C4 counterexample: three definitely-normal samples from a fresh state
bring `not_uovp_cnt` to the threshold; the third sample performs the
record-and-increase action but leaves the streak at 3 — it is NOT reset to
0 as the claim states. -/
theorem c4_counterexample :
    (runVolts (enabledWorld chgA) [5000, 5000]).d.not_uovp_cnt + 1
        = DETECT_CNT ∧
    (runVolts (enabledWorld chgA) [5000, 5000, 5000]).d.not_uovp_cnt = 3 ∧
    (runVolts (enabledWorld chgA) [5000, 5000, 5000]).d.not_uovp_cnt ≠ 0 := by
  refine ⟨?_, ?_, ?_⟩ <;> decide

/-- C4 (amended): in the normal pass with the global fault flag clear, when
the incremented streak reaches the debounce threshold the operation records
the previously observed `current_ua` into `no_uovp_current_ua` and invokes
the Current Controller to increase current by one step — but the streak is
NOT reset: it keeps growing past the threshold. -/
theorem c4_amended (w : World) (v : Int)
    (h_en : w.d.enable = true) (h_vb : w.chg.vbus_present = true)
    (h_ovp : w.chg.chg_ovp = false) (h_lock : w.d.lock_current = false)
    (h_last : w.d.last_uovp_state = false) (h_us : w.d.uovp_state = false)
    (h_cnt : DETECT_CNT ≤ w.d.not_uovp_cnt + 1)
    (h_v : CHG_SOFT_UVP_MV + CHG_SOFT_OVP_HYST_MV < v ∧
      v < CHG_SOFT_OVP_MV - CHG_SOFT_OVP_HYST_MV) :
    (op_check_charger_uovp w v false false).d.no_uovp_current_ua
        = w.d.current_ua ∧
    (op_check_charger_uovp w v false false).d.not_uovp_cnt
        = w.d.not_uovp_cnt + 1 ∧
    (op_check_charger_uovp w v false false).chg.icl_ua
        = incStep w.chg.apsd_bit w.chg.icl_ua := by
  obtain ⟨⟨c1, c2, c3, c4, c5, c6, c7, c8, c9, c10⟩,
    ⟨b1, b2, icl, apsd, b5⟩⟩ := w
  simp only at h_en h_vb h_ovp h_lock h_last h_us h_cnt
  subst h_en h_vb h_ovp h_lock h_last h_us
  obtain ⟨hv1, hv2⟩ := h_v
  have hd1 : decide (v > CHG_SOFT_OVP_MV) = false := by
    apply decide_eq_false
    simp only [CHG_SOFT_OVP_MV, CHG_SOFT_OVP_HYST_MV] at hv2 ⊢
    omega
  have hd2 : decide (v ≤ CHG_SOFT_UVP_MV) = false := by
    apply decide_eq_false
    simp only [CHG_SOFT_UVP_MV, CHG_SOFT_OVP_HYST_MV] at hv1 ⊢
    omega
  have hd3 : v < CHG_SOFT_OVP_MV - CHG_SOFT_OVP_HYST_MV := hv2
  have hd4 : CHG_SOFT_UVP_MV + CHG_SOFT_OVP_HYST_MV < v := hv1
  have hcnt : DETECT_CNT ≤ c2 + 1 := h_cnt
  have hfo : ¬ (CHG_SOFT_OVP_MV ≤ v + CHG_SOFT_OVP_HYST_MV) := by
    simp only [CHG_SOFT_OVP_MV, CHG_SOFT_OVP_HYST_MV] at hv2 ⊢
    omega
  have hfu2 : ¬ (v ≤ CHG_SOFT_UVP_MV + CHG_SOFT_OVP_HYST_MV) := by
    simp only [CHG_SOFT_UVP_MV, CHG_SOFT_OVP_HYST_MV] at hv1 ⊢
    omega
  have hcnt2 : 2 ≤ c2 := by
    simp only [DETECT_CNT] at h_cnt
    omega
  by_cases hne : icl = incStep apsd icl <;>
  by_cases hlk : incStep apsd icl = ceilFor apsd <;>
  · simp only [op_check_charger_uovp, op_cg_handle_uovp,
      op_cg_detect_uovp, op_cg_detect_normal, hd1, hd2,
      op_cg_cutoff_on_err, op_cg_uovp_cutoff, op_cg_uovp_restore]
    norm_num
    first
    | (simp [inc_dec_true_eq, DETECT_CNT, hcnt2, hfo, hfu2, negEINVAL, hlk,
        eq_true (hne.trans hlk), apply_ite]
       try omega)
    | (simp [inc_dec_true_eq, DETECT_CNT, hcnt2, hfo, hfu2, negEINVAL, hlk,
        eq_true hne, apply_ite]
       try omega)
    | (simp [inc_dec_true_eq, DETECT_CNT, hcnt2, hfo, hfu2, negEINVAL, hlk,
        eq_false (fun h => hne (h.trans hlk.symm)), apply_ite]
       try omega)
    | (simp [inc_dec_true_eq, DETECT_CNT, hcnt2, hfo, hfu2, negEINVAL, hlk,
        hne, apply_ite]
       try omega)

/-- C4 amended witness at the third normal sample of a fresh run. -/
theorem c4_amended_witness :
    ((runVolts (enabledWorld chgA) [5000, 5000]).d.enable = true ∧
      DETECT_CNT ≤ (runVolts (enabledWorld chgA) [5000, 5000]).d.not_uovp_cnt + 1 ∧
      (CHG_SOFT_UVP_MV + CHG_SOFT_OVP_HYST_MV < (5000 : Int) ∧
        (5000 : Int) < CHG_SOFT_OVP_MV - CHG_SOFT_OVP_HYST_MV)) ∧
    ((op_check_charger_uovp (runVolts (enabledWorld chgA) [5000, 5000]) 5000
        false false).d.no_uovp_current_ua =
      (runVolts (enabledWorld chgA) [5000, 5000]).d.current_ua ∧
     (op_check_charger_uovp (runVolts (enabledWorld chgA) [5000, 5000]) 5000
        false false).d.not_uovp_cnt =
      (runVolts (enabledWorld chgA) [5000, 5000]).d.not_uovp_cnt + 1 ∧
     (op_check_charger_uovp (runVolts (enabledWorld chgA) [5000, 5000]) 5000
        false false).chg.icl_ua =
      incStep (runVolts (enabledWorld chgA) [5000, 5000]).chg.apsd_bit
        (runVolts (enabledWorld chgA) [5000, 5000]).chg.icl_ua) :=
  ⟨⟨by decide, by decide, by decide, by decide⟩,
    c4_amended (runVolts (enabledWorld chgA) [5000, 5000]) 5000
      (by decide) (by decide) (by decide) (by decide) (by decide) (by decide)
      (by decide) ⟨by decide, by decide⟩⟩

theorem cutoff_on_err_d (ret : Int) (d : OpData) (chg : SmbCharger) :
    (op_cg_cutoff_on_err ret d chg).1 = d := by
  simp only [op_cg_cutoff_on_err, op_cg_uovp_cutoff]
  split_ifs <;> rfl

theorem cutoff_on_err_chg_flagged (ret : Int) (d : OpData) (chg : SmbCharger)
    (h : chg.chg_ovp = true) :
    (op_cg_cutoff_on_err ret d chg).2 = chg := by
  simp only [op_cg_cutoff_on_err, op_cg_uovp_cutoff, h]
  split_ifs <;> simp_all

theorem restore_d (d : OpData) (chg : SmbCharger) :
    (op_cg_uovp_restore d chg).1 = d := by
  simp only [op_cg_uovp_restore]
  split_ifs <;> rfl

theorem inc_dec_d_frame (d : OpData) (chg : SmbCharger) (incr gf sf : Bool) :
    (op_cg_current_inc_dec d chg incr gf sf).2.1.uovp_cnt = d.uovp_cnt ∧
    (op_cg_current_inc_dec d chg incr gf sf).2.1.not_uovp_cnt
        = d.not_uovp_cnt ∧
    (op_cg_current_inc_dec d chg incr gf sf).2.1.no_uovp_current_ua
        = d.no_uovp_current_ua ∧
    (op_cg_current_inc_dec d chg incr gf sf).2.1.uovp_state = d.uovp_state ∧
    (op_cg_current_inc_dec d chg incr gf sf).2.1.last_uovp_state
        = d.last_uovp_state := by
  cases gf
  · cases incr
    · simp only [inc_dec_false_eq]
      split_ifs <;> simp
    · simp only [inc_dec_true_eq]
      split_ifs <;> simp
  · simp only [inc_dec_getFail_eq]
    simp

theorem inc_dec_chg_frame (d : OpData) (chg : SmbCharger) (incr gf sf : Bool) :
    (op_cg_current_inc_dec d chg incr gf sf).2.2.chg_ovp = chg.chg_ovp ∧
    (op_cg_current_inc_dec d chg incr gf sf).2.2.charging_en
        = chg.charging_en := by
  cases gf
  · cases incr
    · simp only [inc_dec_false_eq]
      split_ifs <;> simp
    · simp only [inc_dec_true_eq]
      split_ifs <;> simp
  · simp only [inc_dec_getFail_eq]
    simp

theorem inc_dec_lock_frame (d : OpData) (chg : SmbCharger)
    (incr gf sf : Bool) :
    (op_cg_current_inc_dec d chg incr gf sf).2.1.lock_current
        = d.lock_current ∨
    (op_cg_current_inc_dec d chg incr gf sf).2.1.lock_current = true := by
  cases gf
  · cases incr
    · simp only [inc_dec_false_eq]
      split_ifs <;> simp
    · simp only [inc_dec_true_eq]
      split_ifs <;> simp
  · simp only [inc_dec_getFail_eq]
    simp

theorem detect_uovp_counters (d : OpData) (chg : SmbCharger) (gf sf : Bool) :
    ((op_cg_detect_uovp d chg gf sf).1.uovp_cnt = d.uovp_cnt ∧
      (op_cg_detect_uovp d chg gf sf).1.not_uovp_cnt = d.not_uovp_cnt) ∨
    (op_cg_detect_uovp d chg gf sf).1.not_uovp_cnt = 0 := by
  obtain ⟨c1, c2, c3, c4, c5, c6, c7, c8, c9, c10⟩ := d
  simp only [op_cg_detect_uovp]
  split_ifs <;>
    simp [cutoff_on_err_d, inc_dec_d_frame, op_cg_current_set,
      smblib_set_icl_current] <;>
    omega

theorem detect_normal_counters (d : OpData) (chg : SmbCharger)
    (gf sf : Bool) :
    ((op_cg_detect_normal d chg gf sf).1.uovp_cnt = d.uovp_cnt ∧
      (op_cg_detect_normal d chg gf sf).1.not_uovp_cnt = d.not_uovp_cnt) ∨
    (op_cg_detect_normal d chg gf sf).1.uovp_cnt = 0 := by
  obtain ⟨c1, c2, c3, c4, c5, c6, c7, c8, c9, c10⟩ := d
  simp only [op_cg_detect_normal]
  split_ifs <;>
    simp [restore_d, inc_dec_d_frame] <;>
    omega

theorem handle_counters (d : OpData) (chg : SmbCharger) (gf sf : Bool)
    (h : d.uovp_cnt = 0 ∨ d.not_uovp_cnt = 0) :
    (op_cg_handle_uovp d chg gf sf).1.uovp_cnt = 0 ∨
    (op_cg_handle_uovp d chg gf sf).1.not_uovp_cnt = 0 := by
  simp only [op_cg_handle_uovp]
  by_cases hskip : (op_cg_detect_uovp d chg gf sf).1.uovp_state = true ∧
      (op_cg_detect_uovp d chg gf sf).1.last_uovp_state = false
  · rcases detect_uovp_counters d chg gf sf with ⟨e1, e2⟩ | e2 <;>
    · simp [hskip]
      omega
  · rcases detect_normal_counters (op_cg_detect_uovp d chg gf sf).1
        (op_cg_detect_uovp d chg gf sf).2 gf sf with ⟨f1, f2⟩ | f2 <;>
    rcases detect_uovp_counters d chg gf sf with ⟨e1, e2⟩ | e2 <;>
    · simp [hskip]
      omega

/-- C9: through every sequence of enable/disable calls and processed
samples from the zeroed start state, the fault streak `uovp_cnt` and the
normal streak `not_uovp_cnt` are never both nonzero. -/
theorem c9_streaks_exclusive (chg0 : SmbCharger) (evs : List Ev) :
    (runEvents (initWorld chg0) evs).d.uovp_cnt = 0 ∨
    (runEvents (initWorld chg0) evs).d.not_uovp_cnt = 0 := by
  suffices h : ∀ (w : World), (w.d.uovp_cnt = 0 ∨ w.d.not_uovp_cnt = 0) →
      ∀ (l : List Ev), (runEvents w l).d.uovp_cnt = 0 ∨
        (runEvents w l).d.not_uovp_cnt = 0 by
    exact h _ (Or.inl rfl) evs
  intro w hw l
  induction l generalizing w with
  | nil => exact hw
  | cons e es ih =>
    show (runEvents (stepEv w e) es).d.uovp_cnt = 0 ∨
      (runEvents (stepEv w e) es).d.not_uovp_cnt = 0
    apply ih
    cases e with
    | sample v gf sf =>
      by_cases he : w.d.enable = false
      · simpa [stepEv, op_check_charger_uovp, he] using hw
      · by_cases hvb : w.chg.vbus_present = false
        · simpa [stepEv, op_check_charger_uovp, he, hvb] using hw
        · have hh := handle_counters { w.d with vchg_mv := v } w.chg gf sf
            (by simpa using hw)
          simpa [stepEv, op_check_charger_uovp, he, hvb] using hh
    | present p =>
      by_cases he : w.d.enable = p
      · simpa [stepEv, op_cg_uovp_enable, he] using hw
      · cases p
        · simp [stepEv, op_cg_uovp_enable, he, opDataZero]
        · simpa [stepEv, op_cg_uovp_enable, he] using hw

theorem inc_dec_lock_stays (d : OpData) (chg : SmbCharger)
    (incr gf sf : Bool) (h : d.lock_current = true) :
    (op_cg_current_inc_dec d chg incr gf sf).2.1.lock_current = true := by
  cases gf
  · cases incr
    · simp only [inc_dec_false_eq]
      split_ifs <;> simp [h]
    · simp only [inc_dec_true_eq]
      split_ifs <;> simp [h]
  · simp only [inc_dec_getFail_eq]
    exact h

theorem detect_uovp_flags (d : OpData) (chg : SmbCharger) (gf sf : Bool)
    (h2 : chg.chg_ovp = true) (hlock : d.lock_current = true) :
    (op_cg_detect_uovp d chg gf sf).2.chg_ovp = true ∧
    (op_cg_detect_uovp d chg gf sf).2.charging_en = chg.charging_en ∧
    (op_cg_detect_uovp d chg gf sf).1.lock_current = true := by
  obtain ⟨c1, c2, c3, c4, c5, c6, c7, c8, c9, c10⟩ := d
  simp only at hlock
  subst hlock
  simp only [op_cg_detect_uovp]
  split_ifs <;>
  · cases sf <;>
    · refine ⟨?_, ?_, ?_⟩ <;>
      simp [op_cg_current_set, smblib_set_icl_current, cutoff_on_err_d,
        cutoff_on_err_chg_flagged, inc_dec_d_frame, inc_dec_chg_frame,
        inc_dec_lock_stays, h2, negEINVAL]

theorem detect_normal_flags (d : OpData) (chg : SmbCharger) (gf sf : Bool)
    (hlock : d.lock_current = true) :
    (op_cg_detect_normal d chg gf sf).2 = chg ∧
    (op_cg_detect_normal d chg gf sf).1.lock_current = true := by
  obtain ⟨c1, c2, c3, c4, c5, c6, c7, c8, c9, c10⟩ := d
  simp only at hlock
  subst hlock
  simp only [op_cg_detect_normal]
  split_ifs <;> simp_all

theorem c10_step (w : World) (v : Int) (gf sf : Bool)
    (h1 : w.d.lock_current = true) (h2 : w.chg.chg_ovp = true)
    (h3 : w.chg.charging_en = false) :
    (op_check_charger_uovp w v gf sf).d.lock_current = true ∧
    (op_check_charger_uovp w v gf sf).chg.chg_ovp = true ∧
    (op_check_charger_uovp w v gf sf).chg.charging_en = false := by
  have hu := detect_uovp_flags { w.d with vchg_mv := v } w.chg gf sf h2
    (by simpa using h1)
  have hn := detect_normal_flags
    (op_cg_detect_uovp { w.d with vchg_mv := v } w.chg gf sf).1
    (op_cg_detect_uovp { w.d with vchg_mv := v } w.chg gf sf).2 gf sf
    hu.2.2
  simp only [op_check_charger_uovp, op_cg_handle_uovp]
  split_ifs with hg1 hg2 hskip
  · exact ⟨h1, h2, h3⟩
  · exact ⟨h1, h2, h3⟩
  · refine ⟨by simpa using hu.2.2, by simpa using hu.1, ?_⟩
    simp only
    rw [hu.2.1]
    exact h3
  · refine ⟨by simpa using hn.2, ?_, ?_⟩
    · simp only
      rw [hn.1, hu.1]
    · simp only
      rw [hn.1, hu.2.1]
      exact h3

/-- C10: from any state where the current is locked and charging has been
cut off (global fault flag set, charging disabled), no sequence of processed
samples — definite-normal ones included — ever reaches Restore: the lock
stays set, charging stays disabled and the global fault flag stays set. -/
theorem c10_no_restore_when_locked (w : World)
    (h1 : w.d.lock_current = true) (h2 : w.chg.chg_ovp = true)
    (h3 : w.chg.charging_en = false) (vs : List (Int × Bool × Bool)) :
    (runSamples w vs).d.lock_current = true ∧
    (runSamples w vs).chg.chg_ovp = true ∧
    (runSamples w vs).chg.charging_en = false := by
  induction vs generalizing w with
  | nil => exact ⟨h1, h2, h3⟩
  | cons p ps ih =>
    have hs := c10_step w p.1 p.2.1 p.2.2 h1 h2 h3
    exact ih (op_check_charger_uovp w p.1 p.2.1 p.2.2) hs.1 hs.2.1 hs.2.2

/-- C10 witness: a locked, cut-off state stays locked, flagged and not
charging across a definite-normal sample. -/
theorem c10_no_restore_when_locked_witness :
    ((⟨{ opDataZero with enable := true, lock_current := true },
        { chgA with chg_ovp := true, charging_en := false }⟩ :
          World).d.lock_current = true ∧
      (⟨{ opDataZero with enable := true, lock_current := true },
        { chgA with chg_ovp := true, charging_en := false }⟩ :
          World).chg.chg_ovp = true) ∧
    ((runSamples
        ⟨{ opDataZero with enable := true, lock_current := true },
          { chgA with chg_ovp := true, charging_en := false }⟩
        [(5000, false, false)]).d.lock_current = true ∧
      (runSamples
        ⟨{ opDataZero with enable := true, lock_current := true },
          { chgA with chg_ovp := true, charging_en := false }⟩
        [(5000, false, false)]).chg.chg_ovp = true ∧
      (runSamples
        ⟨{ opDataZero with enable := true, lock_current := true },
          { chgA with chg_ovp := true, charging_en := false }⟩
        [(5000, false, false)]).chg.charging_en = false) :=
  ⟨⟨by decide, by decide⟩,
    c10_no_restore_when_locked
      ⟨{ opDataZero with enable := true, lock_current := true },
        { chgA with chg_ovp := true, charging_en := false }⟩
      (by decide) (by decide) (by decide) [(5000, false, false)]⟩

end OpCgUovp
